import Mathlib

/-!
Verification of the color-based mesh partitioning and multi-part export
pipeline of the GLB converters (`convert_to_3mf.py` and `convert_to_stls.py`).

The pipeline is embedded shallowly: vertex positions and colors are exact
rationals (the Python code uses floats; all arithmetic appearing here —
sums, division by 3 and 255, squaring — is modelled exactly), face index
triples are natural-number triples, and the real-valued perceptual distance
`sqrt(dr² + 2·dg² + db²) · 100` is represented both by its square
(`distSq`, computable, used by the executable classifier) and by the real
number itself (`get_color_distance`), with bridge lemmas showing the two
induce the same comparisons.
-/

namespace Hunyuan

/-- An RGBA vertex color, channels in the 0–255 range. -/
structure RGBA where
  r : ℚ
  g : ℚ
  b : ℚ
  a : ℚ
deriving DecidableEq, Repr

/-- An RGB color triple, channels in the 0–255 range. -/
structure RGB where
  r : ℚ
  g : ℚ
  b : ℚ
deriving DecidableEq, Repr

/-- A triangle mesh as held in memory by the converters: vertex positions,
faces as triples of vertex indices, and an optional-in-spirit parallel list
of per-vertex RGBA colors. -/
structure Mesh where
  vertices : List (ℚ × ℚ × ℚ)
  faces : List (Nat × Nat × Nat)
  vertexColors : List RGBA
deriving DecidableEq, Repr

/-- Well-formedness invariant of §3 of the spec: every face index is a valid
vertex index. -/
def Mesh.WF (m : Mesh) : Prop :=
  ∀ f ∈ m.faces, f.1 < m.vertices.length ∧ f.2.1 < m.vertices.length ∧
    f.2.2 < m.vertices.length

instance (m : Mesh) : Decidable m.WF := by
  unfold Mesh.WF; infer_instance

/-- Squared, unscaled form of `get_color_distance` from `convert_to_3mf.py`
(identical copy in `convert_to_stls.py`): channels are normalized to [0,1]
by dividing by 255 and the green difference is double-weighted.  The code
returns `sqrt(dr + dg + db) * 100`; this is the radicand `dr + dg + db`. -/
def distSq (c1 c2 : RGB) : ℚ :=
  ((c1.r - c2.r) / 255) ^ 2 + 2 * ((c1.g - c2.g) / 255) ^ 2 +
    ((c1.b - c2.b) / 255) ^ 2

/-- `get_color_distance` itself: the weighted Euclidean perceptual distance
`sqrt((Δr)² + 2·(Δg)² + (Δb)²) × 100` over channels normalized to [0,1]. -/
noncomputable def get_color_distance (c1 c2 : RGB) : ℝ :=
  Real.sqrt ((distSq c1 c2 : ℚ) : ℝ) * 100

theorem distSq_nonneg (c1 c2 : RGB) : 0 ≤ distSq c1 c2 := by
  unfold distSq
  positivity

theorem get_color_distance_nonneg (c1 c2 : RGB) :
    0 ≤ get_color_distance c1 c2 := by
  unfold get_color_distance
  positivity

/-- Comparisons of the real distances are exactly comparisons of the
rational radicands: `sqrt` is strictly monotone on nonnegatives and the
`× 100` scaling is positive. -/
theorem get_color_distance_lt_iff (a b c d : RGB) :
    get_color_distance a b < get_color_distance c d ↔ distSq a b < distSq c d := by
  unfold get_color_distance
  rw [mul_lt_mul_right (by norm_num : (0:ℝ) < 100)]
  rw [Real.sqrt_lt_sqrt_iff (by exact_mod_cast distSq_nonneg a b)]
  exact_mod_cast Iff.rfl

theorem get_color_distance_le_iff (a b c d : RGB) :
    get_color_distance a b ≤ get_color_distance c d ↔ distSq a b ≤ distSq c d := by
  rw [← not_lt, get_color_distance_lt_iff, not_lt]

/-- The tolerance test `min_dist < tolerance` of the code, phrased on the
squared distance so that it is decidable: for `d ≥ 0`,
`sqrt d · 100 < t ↔ 0 < t ∧ d · 10000 < t²`. -/
def distLtTol (d tol : ℚ) : Prop := 0 < tol ∧ d * 10000 < tol ^ 2

instance (d tol : ℚ) : Decidable (distLtTol d tol) :=
  inferInstanceAs (Decidable (0 < tol ∧ d * 10000 < tol ^ 2))

theorem distLtTol_iff_sqrt (d tol : ℚ) (hd : 0 ≤ d) :
    distLtTol d tol ↔ Real.sqrt (d : ℝ) * 100 < (tol : ℝ) := by
  unfold distLtTol
  constructor
  · rintro ⟨ht, hlt⟩
    have h1 : Real.sqrt (d : ℝ) * 100 = Real.sqrt ((d : ℝ) * 10000) := by
      rw [Real.sqrt_mul (by exact_mod_cast hd), show Real.sqrt 10000 = 100 by
        rw [show (10000 : ℝ) = 100 ^ 2 by norm_num, Real.sqrt_sq (by norm_num)]]
    rw [h1]
    calc Real.sqrt ((d : ℝ) * 10000) < Real.sqrt ((tol : ℝ) ^ 2) := by
          apply Real.sqrt_lt_sqrt (by positivity)
          exact_mod_cast hlt
      _ = (tol : ℝ) := Real.sqrt_sq (by exact_mod_cast ht.le)
  · intro h
    have hs : 0 ≤ Real.sqrt (d : ℝ) * 100 := by positivity
    have ht : (0 : ℝ) < (tol : ℝ) := lt_of_le_of_lt hs h
    refine ⟨by exact_mod_cast ht, ?_⟩
    have hsq : (Real.sqrt (d : ℝ) * 100) ^ 2 < (tol : ℝ) ^ 2 := by
      apply pow_lt_pow_left₀ h hs
      norm_num
    rw [mul_pow, Real.sq_sqrt (by exact_mod_cast hd)] at hsq
    have : (d : ℝ) * 10000 < (tol : ℝ) ^ 2 := by nlinarith
    exact_mod_cast this

/-- A palette: ordered association of color names to reference RGB triples
(a Python ordered dict in the code; names are unique there). -/
def Palette := List (String × RGB)

/-- The hardcoded `COLOR_PALETTE` of both converters. -/
def COLOR_PALETTE : List (String × RGB) :=
  [("WHITE", ⟨255, 255, 255⟩), ("RED", ⟨210, 30, 45⟩), ("BLUE_VISOR", ⟨25, 30, 70⟩)]

/-- The hardcoded `material_colors` RGBA table of `convert_to_3mf.py`. -/
def material_colors : List (String × RGBA) :=
  [("WHITE", ⟨255, 255, 255, 255⟩), ("RED", ⟨210, 30, 45, 255⟩),
    ("BLUE_VISOR", ⟨25, 30, 70, 255⟩)]

/-- Vertex color lookup, `mesh.vertex_colors[v]` (out-of-range reads, which
would raise in Python, are totalized to black). -/
def vcolor (m : Mesh) (v : Nat) : RGBA := m.vertexColors.getD v ⟨0, 0, 0, 0⟩

/-- `np.mean(vertex_colors[:, :3], axis=0)`: the arithmetic mean of the
R, G, B channels of the three vertices of a face (alpha ignored). -/
def faceAvgColor (m : Mesh) (f : Nat × Nat × Nat) : RGB :=
  { r := ((vcolor m f.1).r + (vcolor m f.2.1).r + (vcolor m f.2.2).r) / 3
    g := ((vcolor m f.1).g + (vcolor m f.2.1).g + (vcolor m f.2.2).g) / 3
    b := ((vcolor m f.1).b + (vcolor m f.2.1).b + (vcolor m f.2.2).b) / 3 }

/-- Average color of face number `i` of the mesh. -/
def faceAvg (m : Mesh) (i : Nat) : RGB := faceAvgColor m (m.faces.getD i (0, 0, 0))

/-- The inner loop of the classifier: iterate the palette in order carrying
`(best_match, min_dist)`; `min_dist` starts at infinity (modelled by the
`none` accumulator) and is replaced exactly on a strict decrease
(`if dist < min_dist`), so the earliest entry wins ties.  Distances are
carried as the squared radicand, which induces the same comparisons as the
real `get_color_distance` (`get_color_distance_lt_iff`). -/
def bestMatchAux (avg : RGB) : List (String × RGB) → Option (String × ℚ) →
    Option (String × ℚ)
  | [], acc => acc
  | p :: rest, acc =>
    match acc with
    | none => bestMatchAux avg rest (some (p.1, distSq avg p.2))
    | some (bn, bd) =>
      if distSq avg p.2 < bd then bestMatchAux avg rest (some (p.1, distSq avg p.2))
      else bestMatchAux avg rest (some (bn, bd))

/-- Best palette match of a color: name and squared distance. -/
def bestMatch (palette : List (String × RGB)) (avg : RGB) : Option (String × ℚ) :=
  bestMatchAux avg palette none

/-- Best palette match of face number `i`. -/
def faceBest (palette : List (String × RGB)) (m : Mesh) (i : Nat) :
    Option (String × ℚ) :=
  bestMatch palette (faceAvg m i)

/-- One step of the face-grouping loop: the pair (group the face index is
appended to, whether it is also recorded in `unmatched_faces`).  Both
branches of the code's `if min_dist < tolerance` append to
`face_indices_by_color[best_match]`; only the else branch additionally
appends to `unmatched_faces`. -/
def faceAssign (palette : List (String × RGB)) (tol : ℚ) (m : Mesh) (i : Nat) :
    Option String × Bool :=
  match faceBest palette m i with
  | none => (none, false)
  | some (nm, d) =>
    if distLtTol d tol then (some nm, false) else (some nm, true)

/-- The list `face_indices_by_color[name]` after the grouping loop: the face
indices whose best match is `name`, in increasing order (the loop visits
faces in order and appends). -/
def groupOf (palette : List (String × RGB)) (tol : ℚ) (m : Mesh)
    (name : String) : List Nat :=
  (List.range m.faces.length).filter
    (fun i => decide ((faceAssign palette tol m i).1 = some name))

/-- The face indices of `unmatched_faces` after the grouping loop. -/
def unmatchedList (palette : List (String × RGB)) (tol : ℚ) (m : Mesh) :
    List Nat :=
  (List.range m.faces.length).filter (fun i => (faceAssign palette tol m i).2)

/-- `trimesh.Trimesh.update_faces(face_indices)` as used by both
converters: keep exactly the faces at the given indices, in the order the
index list gives them. -/
def update_faces (m : Mesh) (idxs : List Nat) : Mesh :=
  { vertices := m.vertices
    faces := idxs.filterMap (fun i => m.faces.get? i)
    vertexColors := m.vertexColors }

/-- Whether vertex index `v` occurs in some face of the list. -/
def referencedB (faces : List (Nat × Nat × Nat)) (v : Nat) : Bool :=
  faces.any (fun f => decide (f.1 = v) || decide (f.2.1 = v) || decide (f.2.2 = v))

/-- The vertex indices that survive unreferenced-vertex pruning, in their
original order. -/
def keptVerts (m : Mesh) : List Nat :=
  (List.range m.vertices.length).filter (fun v => referencedB m.faces v)

/-- New index of an old vertex index after pruning: its position in the
kept-vertex list. -/
def remapIdx (keep : List Nat) (v : Nat) : Nat := keep.indexOf v

/-- `trimesh.Trimesh.remove_unreferenced_vertices()` as called by both
converters right after `update_faces`: drop every vertex not referenced by
any face, keeping the referenced vertices in their original order, and
rewrite each face's indices to positions in the compacted vertex list.
(The converters discard per-vertex colors immediately afterwards by setting
`vertex_colors = None`; the color list is dropped here.) -/
def remove_unreferenced_vertices (m : Mesh) : Mesh :=
  let keep := keptVerts m
  { vertices := keep.filterMap (fun v => m.vertices.get? v)
    faces := m.faces.map
      (fun f => (remapIdx keep f.1, remapIdx keep f.2.1, remapIdx keep f.2.2))
    vertexColors := [] }

/-- The mesh-splitting loop shared by both converters: iterate the color
groups in palette order, skip a color with no assigned faces, and for each
non-empty group build a sub-mesh by `update_faces` followed by
`remove_unreferenced_vertices`, tagged with its color name. -/
def partition (palette : List (String × RGB)) (tol : ℚ) (m : Mesh) :
    List (String × Mesh) :=
  palette.filterMap (fun p =>
    let g := groupOf palette tol m p.1
    if g.isEmpty then none
    else some (p.1, remove_unreferenced_vertices (update_faces m g)))

/-- Whether the three vertex indices of a face are pairwise distinct
(`len(set(face)) == 3` in the code). -/
def nondegenerateB (f : Nat × Nat × Nat) : Bool :=
  decide (f.1 ≠ f.2.1) && decide (f.1 ≠ f.2.2) && decide (f.2.1 ≠ f.2.2)

/-- `remove_degenerate_faces` of `convert_to_3mf.py`: keep exactly the
faces whose three vertex indices are pairwise distinct, in order. -/
def remove_degenerate_faces (faces : List (Nat × Nat × Nat)) :
    List (Nat × Nat × Nat) :=
  faces.filter nondegenerateB

/-- A lib3mf mesh object as the builder populates it: name, the 1-based
material index installed by `SetObjectLevelProperty`, the vertex list, and
the triangle list. -/
structure MeshObject where
  name : String
  propertyIndex : Nat
  vertices : List (ℚ × ℚ × ℚ)
  triangles : List (Nat × Nat × Nat)
deriving DecidableEq, Repr

/-- The lib3mf model the builder assembles: the base material group's
entries in the order added, and the mesh objects in the order added (each
is also added to the build with the identity transform). -/
structure Model3mf where
  materials : List (String × RGBA)
  objects : List MeshObject
deriving DecidableEq, Repr

/-- The error message of the `else: raise RuntimeError(...)` branch. -/
def emptyResultMsg : String :=
  "No meshes were generated. Check color matching and tolerance settings."

/-- The 3MF construction block of `convert_glb_to_automated_3mf` (lines
236–299): if no sub-mesh was produced, raise; otherwise add one material
per `material_colors` entry, then for the `i`-th sub-mesh add a mesh object
named `<stem>_<color>`, bound to 1-based material index `i + 1`, holding
all the sub-mesh's vertices and its faces with degenerate faces
filtered out. -/
def build3mfModel (stem : String) (parts : List (String × Mesh)) : Model3mf :=
  { materials := material_colors
    objects := parts.enum.map (fun pr =>
      { name := stem ++ "_" ++ pr.2.1
        propertyIndex := pr.1 + 1
        vertices := pr.2.2.vertices
        triangles := remove_degenerate_faces pr.2.2.faces }) }

def build3mf (stem : String) (parts : List (String × Mesh)) :
    Except String Model3mf :=
  if parts.isEmpty then Except.error emptyResultMsg
  else Except.ok (build3mfModel stem parts)

/-- The STL export block of `convert_glb_to_stl_parts` (lines 209–232): if
no sub-mesh was produced, raise; otherwise export each sub-mesh unchanged
to `<prefix>_<color>.stl` (no degeneracy filtering on this path). -/
def stlExport (pfx : String) (parts : List (String × Mesh)) :
    Except String (List (String × Mesh)) :=
  if parts.isEmpty then Except.error emptyResultMsg
  else Except.ok (parts.map (fun p => (pfx ++ "_" ++ p.1 ++ ".stl", p.2)))

/-- The core of `convert_glb_to_automated_3mf` after the external loader
hands over the vertex-colored mesh: classify and partition with the
hardcoded palette, then build the 3MF container. -/
def convert_glb_to_automated_3mf (m : Mesh) (tol : ℚ) (stem : String) :
    Except String Model3mf :=
  build3mf stem (partition COLOR_PALETTE tol m)

/-- The core of `convert_glb_to_stl_parts` after loading: the identical
classify-and-partition stage, then per-color STL export. -/
def convert_glb_to_stl_parts (m : Mesh) (tol : ℚ) (pfx : String) :
    Except String (List (String × Mesh)) :=
  stlExport pfx (partition COLOR_PALETTE tol m)

/-- Characterization of the palette scan with a `some` accumulator: the
result either is the accumulator (then the accumulator's distance is a
lower bound of the list) or comes from the list at the first index
realizing the minimum, strictly below the accumulator. -/
theorem bestMatchAux_spec (avg : RGB) (ps : List (String × RGB)) :
    ∀ (bn : String) (bd : ℚ),
      ∃ r, bestMatchAux avg ps (some (bn, bd)) = some r ∧
        ((r = (bn, bd) ∧ ∀ k : Fin ps.length, bd ≤ distSq avg (ps.get k).2) ∨
          (∃ j : Fin ps.length,
            r = ((ps.get j).1, distSq avg (ps.get j).2) ∧
            distSq avg (ps.get j).2 < bd ∧
            (∀ k : Fin ps.length, distSq avg (ps.get j).2 ≤ distSq avg (ps.get k).2) ∧
            (∀ k : Fin ps.length, (k : Nat) < (j : Nat) →
              distSq avg (ps.get j).2 < distSq avg (ps.get k).2))) := by
  induction ps with
  | nil =>
    intro bn bd
    exact ⟨(bn, bd), rfl, Or.inl ⟨rfl, fun k => k.elim0⟩⟩
  | cons p rest ih =>
    intro bn bd
    by_cases hlt : distSq avg p.2 < bd
    · obtain ⟨r, hr, hc⟩ := ih p.1 (distSq avg p.2)
      refine ⟨r, by simpa [bestMatchAux, hlt] using hr, Or.inr ?_⟩
      rcases hc with ⟨rfl, hall⟩ | ⟨j, hj, hjlt, hmin, hfirst⟩
      · refine ⟨⟨0, Nat.succ_pos _⟩, rfl, hlt, ?_, ?_⟩
        · rintro ⟨k, hk⟩
          cases k with
          | zero => exact le_refl _
          | succ k => exact hall ⟨k, Nat.lt_of_succ_lt_succ hk⟩
        · rintro ⟨k, hk⟩ h0
          exact absurd h0 (Nat.not_lt_zero k)
      · refine ⟨⟨(j : Nat) + 1, Nat.succ_lt_succ j.isLt⟩, hj, lt_trans hjlt hlt, ?_, ?_⟩
        · rintro ⟨k, hk⟩
          cases k with
          | zero => exact le_of_lt hjlt
          | succ k => exact hmin ⟨k, Nat.lt_of_succ_lt_succ hk⟩
        · rintro ⟨k, hk⟩ hkj
          cases k with
          | zero => exact hjlt
          | succ k =>
            exact hfirst ⟨k, Nat.lt_of_succ_lt_succ hk⟩ (Nat.lt_of_succ_lt_succ hkj)
    · obtain ⟨r, hr, hc⟩ := ih bn bd
      refine ⟨r, by simpa [bestMatchAux, hlt] using hr, ?_⟩
      rcases hc with ⟨rfl, hall⟩ | ⟨j, hj, hjlt, hmin, hfirst⟩
      · refine Or.inl ⟨rfl, ?_⟩
        rintro ⟨k, hk⟩
        cases k with
        | zero => exact le_of_not_lt hlt
        | succ k => exact hall ⟨k, Nat.lt_of_succ_lt_succ hk⟩
      · refine Or.inr ⟨⟨(j : Nat) + 1, Nat.succ_lt_succ j.isLt⟩, hj, hjlt, ?_, ?_⟩
        · rintro ⟨k, hk⟩
          cases k with
          | zero => exact le_of_lt (lt_of_lt_of_le hjlt (le_of_not_lt hlt))
          | succ k => exact hmin ⟨k, Nat.lt_of_succ_lt_succ hk⟩
        · rintro ⟨k, hk⟩ hkj
          cases k with
          | zero => exact lt_of_lt_of_le hjlt (le_of_not_lt hlt)
          | succ k =>
            exact hfirst ⟨k, Nat.lt_of_succ_lt_succ hk⟩ (Nat.lt_of_succ_lt_succ hkj)

/-- `bestMatch` on a non-empty palette returns the first palette entry
realizing the minimal distance, together with that (squared) distance. -/
theorem bestMatch_spec (palette : List (String × RGB)) (avg : RGB)
    (hne : palette ≠ []) :
    ∃ j : Fin palette.length,
      bestMatch palette avg = some ((palette.get j).1, distSq avg (palette.get j).2) ∧
      (∀ k : Fin palette.length,
        distSq avg (palette.get j).2 ≤ distSq avg (palette.get k).2) ∧
      (∀ k : Fin palette.length, (k : Nat) < (j : Nat) →
        distSq avg (palette.get j).2 < distSq avg (palette.get k).2) := by
  match palette, hne with
  | p :: rest, _ =>
    obtain ⟨r, hr, hc⟩ := bestMatchAux_spec avg rest p.1 (distSq avg p.2)
    have hrun : bestMatch (p :: rest) avg = some r := by
      simpa [bestMatch, bestMatchAux] using hr
    rcases hc with ⟨rfl, hall⟩ | ⟨j, hj, hjlt, hmin, hfirst⟩
    · refine ⟨⟨0, Nat.succ_pos _⟩, hrun, ?_, ?_⟩
      · rintro ⟨k, hk⟩
        cases k with
        | zero => exact le_refl _
        | succ k => exact hall ⟨k, Nat.lt_of_succ_lt_succ hk⟩
      · rintro ⟨k, hk⟩ h0
        exact absurd h0 (Nat.not_lt_zero k)
    · refine ⟨⟨(j : Nat) + 1, Nat.succ_lt_succ j.isLt⟩, by rw [hrun, hj]; rfl, ?_, ?_⟩
      · rintro ⟨k, hk⟩
        cases k with
        | zero => exact le_of_lt hjlt
        | succ k => exact hmin ⟨k, Nat.lt_of_succ_lt_succ hk⟩
      · rintro ⟨k, hk⟩ hkj
        cases k with
        | zero => exact hjlt
        | succ k =>
          exact hfirst ⟨k, Nat.lt_of_succ_lt_succ hk⟩ (Nat.lt_of_succ_lt_succ hkj)

/-- The group a face joins is its best match's name, in both branches of
the tolerance test. -/
theorem faceAssign_fst (palette : List (String × RGB)) (tol : ℚ) (m : Mesh)
    (i : Nat) :
    (faceAssign palette tol m i).1 = (faceBest palette m i).map Prod.fst := by
  unfold faceAssign
  cases hb : faceBest palette m i with
  | none => rfl
  | some r =>
    obtain ⟨nm, d⟩ := r
    by_cases h : distLtTol d tol <;> simp [h]

/-- The group assignment does not depend on the tolerance. -/
theorem faceAssign_fst_tol (palette : List (String × RGB)) (tol tol' : ℚ)
    (m : Mesh) (i : Nat) :
    (faceAssign palette tol m i).1 = (faceAssign palette tol' m i).1 := by
  rw [faceAssign_fst, faceAssign_fst]

/-- A face is flagged unmatched exactly when its carried minimum distance
fails the `min_dist < tolerance` test. -/
theorem faceAssign_snd_iff (palette : List (String × RGB)) (tol : ℚ) (m : Mesh)
    (i : Nat) (nm : String) (d : ℚ) (hb : faceBest palette m i = some (nm, d)) :
    (faceAssign palette tol m i).2 = true ↔ ¬ distLtTol d tol := by
  unfold faceAssign
  rw [hb]
  by_cases h : distLtTol d tol <;> simp [h]

/-- The distance carried by `faceBest` is a squared distance, hence
nonnegative. -/
theorem faceBest_snd_nonneg (palette : List (String × RGB)) (m : Mesh) (i : Nat)
    (nm : String) (d : ℚ) (hb : faceBest palette m i = some (nm, d)) : 0 ≤ d := by
  rcases eq_or_ne palette [] with rfl | hne
  · simp [faceBest, bestMatch, bestMatchAux] at hb
  · obtain ⟨j, hj, -, -⟩ := bestMatch_spec palette (faceAvg m i) hne
    rw [faceBest] at hb
    rw [hb] at hj
    have h := Option.some.inj hj
    rw [show d = distSq (faceAvg m i) (palette.get j).2 from congrArg Prod.snd h]
    exact distSq_nonneg _ _

theorem mem_groupOf (palette : List (String × RGB)) (tol : ℚ) (m : Mesh)
    (name : String) (i : Nat) :
    i ∈ groupOf palette tol m name ↔
      i < m.faces.length ∧ (faceAssign palette tol m i).1 = some name := by
  unfold groupOf
  simp [List.mem_filter, List.mem_range]

theorem mem_unmatchedList (palette : List (String × RGB)) (tol : ℚ) (m : Mesh)
    (i : Nat) :
    i ∈ unmatchedList palette tol m ↔
      i < m.faces.length ∧ (faceAssign palette tol m i).2 = true := by
  unfold unmatchedList
  simp [List.mem_filter, List.mem_range]

/-- The color groups do not depend on the tolerance. -/
theorem groupOf_tol_eq (palette : List (String × RGB)) (tol tol' : ℚ) (m : Mesh)
    (name : String) :
    groupOf palette tol m name = groupOf palette tol' m name := by
  unfold groupOf
  apply List.filter_congr
  intro i _
  simp only [faceAssign_fst, faceAssign_fst_tol palette tol tol' m i]

/-- On a non-empty palette every face is assigned to some palette entry. -/
theorem faceAssign_fst_eq (palette : List (String × RGB)) (tol : ℚ) (m : Mesh)
    (i : Nat) (hne : palette ≠ []) :
    ∃ j : Fin palette.length,
      (faceAssign palette tol m i).1 = some (palette.get j).1 := by
  obtain ⟨j, hj, -, -⟩ := bestMatch_spec palette (faceAvg m i) hne
  refine ⟨j, ?_⟩
  rw [faceAssign_fst, faceBest, hj]
  rfl

theorem list_sum_map_add {β : Type} (names : List β) (f g : β → ℕ) :
    (names.map (fun b => f b + g b)).sum = (names.map f).sum + (names.map g).sum := by
  induction names with
  | nil => simp
  | cons b names ih => simp [ih]; omega

theorem sum_indicator_zero (names : List String) (nm₀ : String)
    (h : nm₀ ∉ names) :
    (names.map (fun nm => if nm₀ = nm then 1 else 0)).sum = 0 := by
  apply List.sum_eq_zero
  intro x hx
  obtain ⟨nm, hmem, hval⟩ := List.mem_map.mp hx
  rw [← hval, if_neg (fun he => h (by rw [he]; exact hmem))]

theorem sum_indicator_one (names : List String) (hnd : names.Nodup) (nm₀ : String)
    (hmem : nm₀ ∈ names) :
    (names.map (fun nm => if nm₀ = nm then 1 else 0)).sum = 1 := by
  induction names with
  | nil => cases hmem
  | cons nm names ih =>
    rcases List.mem_cons.mp hmem with rfl | hmem'
    · simp only [List.map_cons, List.sum_cons, if_pos rfl]
      rw [sum_indicator_zero names nm₀ (List.nodup_cons.mp hnd).1]
      simp
    · have hne : nm₀ ≠ nm := fun he => (List.nodup_cons.mp hnd).1 (he ▸ hmem')
      simp only [List.map_cons, List.sum_cons, if_neg hne]
      rw [ih (List.nodup_cons.mp hnd).2 hmem']

/-- Counting: when every element gets exactly one label among a duplicate-free
name list, the per-name counts add up to the list's length. -/
theorem sum_countP_eq_length {α : Type} (names : List String) (lab : α → Option String)
    (hnd : names.Nodup) (l : List α)
    (hl : ∀ x ∈ l, ∃ nm ∈ names, lab x = some nm) :
    (names.map (fun nm => l.countP (fun x => decide (lab x = some nm)))).sum =
      l.length := by
  induction l with
  | nil => simp
  | cons x l ih =>
    obtain ⟨nm₀, hmem, hx⟩ := hl x (List.mem_cons_self x l)
    have hcons : ∀ nm : String,
        (x :: l).countP (fun y => decide (lab y = some nm)) =
          l.countP (fun y => decide (lab y = some nm)) +
            (if nm₀ = nm then 1 else 0) := by
      intro nm
      rw [List.countP_cons]
      congr 1
      rw [hx]
      by_cases h : nm₀ = nm
      · simp [h]
      · simp [h, fun he => h (Option.some.inj he)]
    calc (names.map (fun nm => (x :: l).countP (fun y => decide (lab y = some nm)))).sum
        = (names.map (fun nm => l.countP (fun y => decide (lab y = some nm)) +
            (if nm₀ = nm then 1 else 0))).sum := by
          congr 1
          exact List.map_congr_left (fun nm _ => hcons nm)
      _ = (names.map (fun nm => l.countP (fun y => decide (lab y = some nm)))).sum +
            (names.map (fun nm => if nm₀ = nm then 1 else 0)).sum :=
          list_sum_map_add names _ _
      _ = l.length + 1 := by
          rw [ih (fun y hy => hl y (List.mem_cons_of_mem x hy)),
            sum_indicator_one names hnd nm₀ hmem]
      _ = (x :: l).length := by simp

/-- Two-face mesh: face 0 has all-white vertices, face 1 all-red vertices
(Scenario A of the spec). -/
def meshTwoColor : Mesh :=
  { vertices := [(0, 0, 0), (1, 0, 0), (0, 1, 0), (0, 0, 1), (1, 1, 0), (1, 0, 1)]
    faces := [(0, 1, 2), (3, 4, 5)]
    vertexColors := [⟨255, 255, 255, 255⟩, ⟨255, 255, 255, 255⟩, ⟨255, 255, 255, 255⟩,
      ⟨210, 30, 45, 255⟩, ⟨210, 30, 45, 255⟩, ⟨210, 30, 45, 255⟩] }

/-- One all-white face. -/
def meshWhiteFace : Mesh :=
  { vertices := [(0, 0, 0), (1, 0, 0), (0, 1, 0)]
    faces := [(0, 1, 2)]
    vertexColors := [⟨255, 255, 255, 255⟩, ⟨255, 255, 255, 255⟩, ⟨255, 255, 255, 255⟩] }

/-- One face whose only face is degenerate (repeated vertex index 0),
all-white vertices. -/
def meshDegenerateOnly : Mesh :=
  { vertices := [(0, 0, 0), (1, 0, 0)]
    faces := [(0, 0, 1)]
    vertexColors := [⟨255, 255, 255, 255⟩, ⟨255, 255, 255, 255⟩] }

/-- One valid white face plus one degenerate white face on otherwise
unshared vertices. -/
def meshMixedDegenerate : Mesh :=
  { vertices := [(0, 0, 0), (1, 0, 0), (0, 1, 0), (0, 0, 1), (1, 1, 0)]
    faces := [(0, 1, 2), (3, 3, 4)]
    vertexColors := [⟨255, 255, 255, 255⟩, ⟨255, 255, 255, 255⟩, ⟨255, 255, 255, 255⟩,
      ⟨255, 255, 255, 255⟩, ⟨255, 255, 255, 255⟩] }

/-- A mesh with vertices but no faces. -/
def meshNoFaces : Mesh :=
  { vertices := [(0, 0, 0), (1, 0, 0), (0, 1, 0)]
    faces := []
    vertexColors := [⟨255, 255, 255, 255⟩, ⟨255, 255, 255, 255⟩, ⟨255, 255, 255, 255⟩] }

/-- C1.  Classification totality: on a non-empty palette with distinct
names, every face index is appended to exactly one color group, the group
sizes add up to the mesh's face count, and a mesh with zero faces yields
all-empty groups. -/
theorem classification_totality (palette : List (String × RGB)) (tol : ℚ)
    (m : Mesh) (hne : palette ≠ []) (hnd : (palette.map Prod.fst).Nodup) :
    (palette.map (fun p => (groupOf palette tol m p.1).length)).sum =
      m.faces.length ∧
    (∀ i, i < m.faces.length →
      ∃! nm : String, nm ∈ palette.map Prod.fst ∧ i ∈ groupOf palette tol m nm) ∧
    (m.faces = [] → ∀ nm, groupOf palette tol m nm = []) := by
  refine ⟨?_, ?_, ?_⟩
  · have key := sum_countP_eq_length (palette.map Prod.fst)
      (fun i => (faceAssign palette tol m i).1) hnd (List.range m.faces.length)
      (fun i _ => by
        obtain ⟨j, hj⟩ := faceAssign_fst_eq palette tol m i hne
        exact ⟨(palette.get j).1,
          List.mem_map.mpr ⟨palette.get j, List.get_mem _ _ _, rfl⟩, hj⟩)
    rw [List.map_map] at key
    rw [List.length_range] at key
    rw [← key]
    congr 1
    apply List.map_congr_left
    intro p _
    simp only [Function.comp_apply, groupOf]
    rw [← List.countP_eq_length_filter]
  · intro i hi
    obtain ⟨j, hj⟩ := faceAssign_fst_eq palette tol m i hne
    refine ⟨(palette.get j).1,
      ⟨List.mem_map.mpr ⟨palette.get j, List.get_mem _ _ _, rfl⟩,
        (mem_groupOf palette tol m _ i).mpr ⟨hi, hj⟩⟩, ?_⟩
    rintro nm ⟨-, hmem⟩
    have h2 := ((mem_groupOf palette tol m nm i).mp hmem).2
    exact Option.some.inj (h2.symm.trans hj)
  · intro hf nm
    simp [groupOf, hf]

/-- C1 witness: concrete instantiation on the two-color mesh with the
hardcoded palette. -/
theorem classification_totality_witness :
    (COLOR_PALETTE.map
        (fun p => (groupOf COLOR_PALETTE 15 meshTwoColor p.1).length)).sum =
      meshTwoColor.faces.length ∧
    (∀ i, i < meshTwoColor.faces.length →
      ∃! nm : String, nm ∈ COLOR_PALETTE.map Prod.fst ∧
        i ∈ groupOf COLOR_PALETTE 15 meshTwoColor nm) ∧
    (meshTwoColor.faces = [] → ∀ nm, groupOf COLOR_PALETTE 15 meshTwoColor nm = []) :=
  classification_totality COLOR_PALETTE 15 meshTwoColor (by decide) (by decide)

/-- C2 fails at the tolerance boundary: with tolerance 0 the all-white
face's minimum distance is exactly 0, which does not exceed the tolerance,
yet the face is recorded in the unmatched set (the code records on
`¬ (min_dist < tolerance)`, not on `min_dist > tolerance`). -/
theorem always_classify_flag_only_cex :
    unmatchedList COLOR_PALETTE 0 meshWhiteFace = [0] ∧
    faceBest COLOR_PALETTE meshWhiteFace 0 = some ("WHITE", 0) ∧
    get_color_distance (faceAvg meshWhiteFace 0) ⟨255, 255, 255⟩ = 0 ∧
    ¬ (get_color_distance (faceAvg meshWhiteFace 0) ⟨255, 255, 255⟩ >
        (((0 : ℚ)) : ℝ)) := by
  have hd : distSq (faceAvg meshWhiteFace 0) ⟨255, 255, 255⟩ = 0 := by
    norm_num [meshWhiteFace, faceAvg, faceAvgColor, vcolor, distSq]
  have h0 : get_color_distance (faceAvg meshWhiteFace 0) ⟨255, 255, 255⟩ = 0 := by
    rw [get_color_distance, hd]
    simp
  refine ⟨?_, ?_, h0, by rw [h0]; simp⟩
  · norm_num [unmatchedList, faceAssign, faceBest, bestMatch, bestMatchAux,
      COLOR_PALETTE, meshWhiteFace, faceAvg, faceAvgColor, vcolor, distSq, distLtTol,
      List.range_succ, List.filter]
  · norm_num [faceBest, bestMatch, bestMatchAux, COLOR_PALETTE, meshWhiteFace,
      faceAvg, faceAvgColor, vcolor, distSq]

/-- C2 (amended).  Always-classify, flag-only policy: every face joins the
group of its best-match palette entry independently of the tolerance, and
it is recorded in the unmatched diagnostic set exactly when its minimum
distance is **at least** the tolerance (i.e. when `min_dist < tolerance`
fails; at exact equality the face is still recorded). -/
theorem always_classify_flag_only (palette : List (String × RGB)) (tol tol' : ℚ)
    (m : Mesh) (i : Nat) (nm : String) (d : ℚ)
    (hb : faceBest palette m i = some (nm, d)) :
    (faceAssign palette tol m i).1 = some nm ∧
    (∀ name, groupOf palette tol m name = groupOf palette tol' m name) ∧
    ((faceAssign palette tol m i).2 = true ↔
      ¬ (Real.sqrt ((d : ℚ) : ℝ) * 100 < (tol : ℝ))) := by
  refine ⟨?_, fun name => groupOf_tol_eq palette tol tol' m name, ?_⟩
  · rw [faceAssign_fst, hb]
    rfl
  · rw [faceAssign_snd_iff palette tol m i nm d hb,
      distLtTol_iff_sqrt d tol (faceBest_snd_nonneg palette m i nm d hb)]

/-- C2 witness: the amended statement instantiated on the one-white-face
mesh at tolerances 15 and 7. -/
theorem always_classify_flag_only_witness :
    (faceAssign COLOR_PALETTE 15 meshWhiteFace 0).1 = some "WHITE" ∧
    (∀ name, groupOf COLOR_PALETTE 15 meshWhiteFace name =
      groupOf COLOR_PALETTE 7 meshWhiteFace name) ∧
    ((faceAssign COLOR_PALETTE 15 meshWhiteFace 0).2 = true ↔
      ¬ (Real.sqrt (((0 : ℚ) : ℚ) : ℝ) * 100 < ((15 : ℚ) : ℝ))) :=
  always_classify_flag_only COLOR_PALETTE 15 7 meshWhiteFace 0 "WHITE" 0 (by
    norm_num [faceBest, bestMatch, bestMatchAux, COLOR_PALETTE, meshWhiteFace,
      faceAvg, faceAvgColor, vcolor, distSq])

/-- C4.  Nearest-entry selection: the classifier assigns each face the
first palette entry of minimal `get_color_distance` (the weighted
`sqrt((Δr)² + 2·(Δg)² + (Δb)²) × 100` metric over the face's average
vertex color): the chosen entry's distance is a minimum over the palette,
and every strictly earlier entry has strictly greater distance, so ties go
to the earlier entry. -/
theorem nearest_entry_selection (palette : List (String × RGB)) (tol : ℚ)
    (m : Mesh) (i : Nat) (hne : palette ≠ []) :
    ∃ j : Fin palette.length,
      (faceAssign palette tol m i).1 = some (palette.get j).1 ∧
      (∀ k : Fin palette.length,
        get_color_distance (faceAvg m i) (palette.get j).2 ≤
          get_color_distance (faceAvg m i) (palette.get k).2) ∧
      (∀ k : Fin palette.length, (k : Nat) < (j : Nat) →
        get_color_distance (faceAvg m i) (palette.get k).2 >
          get_color_distance (faceAvg m i) (palette.get j).2) := by
  obtain ⟨j, hj, hmin, hfirst⟩ := bestMatch_spec palette (faceAvg m i) hne
  refine ⟨j, ?_, ?_, ?_⟩
  · rw [faceAssign_fst, faceBest, hj]
    rfl
  · intro k
    rw [get_color_distance_le_iff]
    exact hmin k
  · intro k hk
    rw [gt_iff_lt, get_color_distance_lt_iff]
    exact hfirst k hk

/-- C4 witness: instantiation on face 0 of the two-color mesh. -/
theorem nearest_entry_selection_witness :
    ∃ j : Fin COLOR_PALETTE.length,
      (faceAssign COLOR_PALETTE 15 meshTwoColor 0).1 = some (COLOR_PALETTE.get j).1 ∧
      (∀ k : Fin COLOR_PALETTE.length,
        get_color_distance (faceAvg meshTwoColor 0) (COLOR_PALETTE.get j).2 ≤
          get_color_distance (faceAvg meshTwoColor 0) (COLOR_PALETTE.get k).2) ∧
      (∀ k : Fin COLOR_PALETTE.length, (k : Nat) < (j : Nat) →
        get_color_distance (faceAvg meshTwoColor 0) (COLOR_PALETTE.get k).2 >
          get_color_distance (faceAvg meshTwoColor 0) (COLOR_PALETTE.get j).2) :=
  nearest_entry_selection COLOR_PALETTE 15 meshTwoColor 0 (by decide)

theorem filterMap_if_map_fst {β γ : Type} (ps : List (String × β))
    (gE : String → Bool) (F : String × β → γ) :
    (ps.filterMap (fun p => if gE p.1 then none else some (p.1, F p))).map Prod.fst =
      (ps.filter (fun p => !gE p.1)).map Prod.fst := by
  induction ps with
  | nil => rfl
  | cons p ps ih => by_cases h : gE p.1 <;> simp [h, ih]

theorem mem_partition (palette : List (String × RGB)) (tol : ℚ) (m : Mesh)
    (pr : String × Mesh) :
    pr ∈ partition palette tol m ↔
      ∃ p ∈ palette, ¬ (groupOf palette tol m p.1).isEmpty ∧
        pr = (p.1, remove_unreferenced_vertices
          (update_faces m (groupOf palette tol m p.1))) := by
  unfold partition
  rw [List.mem_filterMap]
  constructor
  · rintro ⟨p, hp, hbody⟩
    by_cases h : (groupOf palette tol m p.1).isEmpty
    · simp [h] at hbody
    · simp only [h, if_false, Bool.false_eq_true] at hbody
      exact ⟨p, hp, by simp [h], (Option.some.inj hbody).symm⟩
  · rintro ⟨p, hp, hne, rfl⟩
    refine ⟨p, hp, ?_⟩
    simp only [Bool.not_eq_true] at hne
    simp [hne]

/-- C3.  Partition contract: the produced sub-meshes are exactly one per
palette entry with a non-empty color group, in palette order (entries with
empty groups are skipped silently); the groups of distinct names are
pairwise disjoint, and a face index is a valid source index exactly when
some produced part's group contains it. -/
theorem partition_contract (palette : List (String × RGB)) (tol : ℚ) (m : Mesh)
    (hne : palette ≠ []) :
    (partition palette tol m).map Prod.fst =
      (palette.filter (fun p => !(groupOf palette tol m p.1).isEmpty)).map Prod.fst ∧
    (∀ nm nm', nm ≠ nm' → ∀ i, i ∈ groupOf palette tol m nm →
      i ∉ groupOf palette tol m nm') ∧
    (∀ i, i < m.faces.length ↔
      ∃ pr ∈ partition palette tol m, i ∈ groupOf palette tol m pr.1) := by
  refine ⟨?_, ?_, ?_⟩
  · show (palette.filterMap _).map Prod.fst = _
    exact filterMap_if_map_fst palette
      (fun nm => (groupOf palette tol m nm).isEmpty)
      (fun p => remove_unreferenced_vertices
        (update_faces m (groupOf palette tol m p.1)))
  · intro nm nm' hnm i h1 h2
    have e1 := ((mem_groupOf palette tol m nm i).mp h1).2
    have e2 := ((mem_groupOf palette tol m nm' i).mp h2).2
    exact hnm (Option.some.inj (e1.symm.trans e2))
  · intro i
    constructor
    · intro hi
      obtain ⟨j, hj⟩ := faceAssign_fst_eq palette tol m i hne
      have hmem : i ∈ groupOf palette tol m (palette.get j).1 :=
        (mem_groupOf palette tol m _ i).mpr ⟨hi, hj⟩
      refine ⟨((palette.get j).1, remove_unreferenced_vertices
        (update_faces m (groupOf palette tol m (palette.get j).1))), ?_, hmem⟩
      rw [mem_partition]
      exact ⟨palette.get j, List.get_mem _ _ _,
        by simp only [List.isEmpty_iff]; exact List.ne_nil_of_mem hmem, rfl⟩
    · rintro ⟨pr, -, hmem⟩
      exact ((mem_groupOf palette tol m pr.1 i).mp hmem).1

/-- C3 witness: instantiation on the two-color mesh. -/
theorem partition_contract_witness :
    (partition COLOR_PALETTE 15 meshTwoColor).map Prod.fst =
      (COLOR_PALETTE.filter
        (fun p => !(groupOf COLOR_PALETTE 15 meshTwoColor p.1).isEmpty)).map Prod.fst ∧
    (∀ nm nm', nm ≠ nm' → ∀ i, i ∈ groupOf COLOR_PALETTE 15 meshTwoColor nm →
      i ∉ groupOf COLOR_PALETTE 15 meshTwoColor nm') ∧
    (∀ i, i < meshTwoColor.faces.length ↔
      ∃ pr ∈ partition COLOR_PALETTE 15 meshTwoColor,
        i ∈ groupOf COLOR_PALETTE 15 meshTwoColor pr.1) :=
  partition_contract COLOR_PALETTE 15 meshTwoColor (by decide)

theorem filterMap_get?_pos {α : Type} (a : α) (l' : List α) (idxs : List Nat)
    (hpos : ∀ j ∈ idxs, 0 < j) :
    idxs.filterMap (fun j => (a :: l').get? j) =
      (idxs.map Nat.pred).filterMap (fun j => l'.get? j) := by
  induction idxs with
  | nil => rfl
  | cons j idxs ih =>
    have hj := hpos j (List.mem_cons_self j idxs)
    obtain ⟨j', rfl⟩ := Nat.exists_eq_succ_of_ne_zero (Nat.pos_iff_ne_zero.mp hj)
    have ih' := ih (fun x hx => hpos x (List.mem_cons_of_mem _ hx))
    simp only [List.get?_eq_getElem?] at ih' ⊢
    cases h : l'[j']? with
    | none => simp [List.filterMap_cons, h, ih']
    | some b => simp [List.filterMap_cons, h, ih']

theorem pairwise_lt_map_pred (idxs : List Nat) (hpw : idxs.Pairwise (· < ·))
    (hpos : ∀ j ∈ idxs, 0 < j) :
    (idxs.map Nat.pred).Pairwise (· < ·) := by
  rw [List.pairwise_map]
  refine List.Pairwise.imp_of_mem ?_ hpw
  intro a b ha _ hab
  exact Nat.pred_lt_pred (Nat.pos_iff_ne_zero.mp (hpos a ha)) hab

/-- Selecting list elements at a strictly increasing index list produces a
sublist: the selection preserves relative order. -/
theorem filterMap_get?_sublist {α : Type} :
    ∀ (l : List α) (idxs : List Nat), idxs.Pairwise (· < ·) →
      (idxs.filterMap (fun i => l.get? i)).Sublist l := by
  intro l
  induction l with
  | nil =>
    intro idxs _
    have h : idxs.filterMap (fun i => ([] : List α).get? i) = [] := by
      simp
    rw [h]
  | cons a l' ih =>
    intro idxs hpw
    cases idxs with
    | nil => exact List.nil_sublist _
    | cons j rest =>
      have hrest : rest.Pairwise (· < ·) := (List.pairwise_cons.mp hpw).2
      cases j with
      | zero =>
        have hpos : ∀ x ∈ rest, 0 < x :=
          fun x hx => (List.pairwise_cons.mp hpw).1 x hx
        rw [List.filterMap_cons]
        simp only [List.get?_cons_zero]
        rw [filterMap_get?_pos a l' rest hpos]
        exact List.Sublist.cons₂ a (ih _ (pairwise_lt_map_pred rest hrest hpos))
      | succ j =>
        have hpos : ∀ x ∈ (j + 1) :: rest, 0 < x := by
          intro x hx
          rcases List.mem_cons.mp hx with rfl | hx'
          · exact Nat.succ_pos j
          · exact lt_trans (Nat.succ_pos j) ((List.pairwise_cons.mp hpw).1 x hx')
        rw [filterMap_get?_pos a l' _ hpos]
        exact List.Sublist.cons a (ih _ (pairwise_lt_map_pred _ hpw hpos))

theorem filterMap_get?_length {α : Type} (l : List α) (idxs : List Nat)
    (hv : ∀ i ∈ idxs, i < l.length) :
    (idxs.filterMap (fun i => l.get? i)).length = idxs.length := by
  induction idxs with
  | nil => rfl
  | cons i idxs ih =>
    have hi := hv i (List.mem_cons_self i idxs)
    simp only [List.filterMap_cons, List.get?_eq_get hi, List.length_cons]
    rw [ih (fun x hx => hv x (List.mem_cons_of_mem _ hx))]

theorem groupOf_pairwise_lt (palette : List (String × RGB)) (tol : ℚ) (m : Mesh)
    (name : String) : (groupOf palette tol m name).Pairwise (· < ·) :=
  List.Pairwise.filter _ (List.pairwise_lt_range m.faces.length)

theorem groupOf_lt_length (palette : List (String × RGB)) (tol : ℚ) (m : Mesh)
    (name : String) : ∀ i ∈ groupOf palette tol m name, i < m.faces.length :=
  fun i hi => ((mem_groupOf palette tol m name i).mp hi).1

/-- C10.  Face-order preservation: each color group lists its face indices
in strictly increasing source order, `update_faces` therefore yields a
sublist of the source face list (same relative order), and pruning rewrites
faces in place, so each produced sub-mesh has exactly one face per group
index, in group order. -/
theorem face_order_preservation (palette : List (String × RGB)) (tol : ℚ)
    (m : Mesh) (name : String) :
    (groupOf palette tol m name).Pairwise (· < ·) ∧
    ((update_faces m (groupOf palette tol m name)).faces).Sublist m.faces ∧
    (∀ pr ∈ partition palette tol m,
      pr.2.faces.length = (groupOf palette tol m pr.1).length) := by
  refine ⟨groupOf_pairwise_lt palette tol m name, ?_, ?_⟩
  · exact filterMap_get?_sublist m.faces _ (groupOf_pairwise_lt palette tol m name)
  · intro pr hpr
    obtain ⟨p, -, -, rfl⟩ := (mem_partition palette tol m pr).mp hpr
    show ((update_faces m _).faces.map _).length = _
    rw [List.length_map]
    exact filterMap_get?_length m.faces _ (groupOf_lt_length palette tol m p.1)

/-- C10 witness: instantiation on the two-color mesh and the WHITE group. -/
theorem face_order_preservation_witness :
    (groupOf COLOR_PALETTE 15 meshTwoColor "WHITE").Pairwise (· < ·) ∧
    ((update_faces meshTwoColor
      (groupOf COLOR_PALETTE 15 meshTwoColor "WHITE")).faces).Sublist
      meshTwoColor.faces ∧
    (∀ pr ∈ partition COLOR_PALETTE 15 meshTwoColor,
      pr.2.faces.length = (groupOf COLOR_PALETTE 15 meshTwoColor pr.1).length) :=
  face_order_preservation COLOR_PALETTE 15 meshTwoColor "WHITE"

theorem prune_vertices (mm : Mesh) :
    (remove_unreferenced_vertices mm).vertices =
      (keptVerts mm).filterMap (fun v => mm.vertices.get? v) := rfl

theorem prune_faces (mm : Mesh) :
    (remove_unreferenced_vertices mm).faces = mm.faces.map
      (fun f => (remapIdx (keptVerts mm) f.1, remapIdx (keptVerts mm) f.2.1,
        remapIdx (keptVerts mm) f.2.2)) := rfl

theorem prune_colors (mm : Mesh) :
    (remove_unreferenced_vertices mm).vertexColors = [] := rfl

theorem mem_keptVerts (mm : Mesh) (v : Nat) :
    v ∈ keptVerts mm ↔ v < mm.vertices.length ∧ referencedB mm.faces v = true := by
  unfold keptVerts
  simp [List.mem_filter, List.mem_range]

theorem keptVerts_nodup (mm : Mesh) : (keptVerts mm).Nodup :=
  List.Nodup.filter _ (List.nodup_range _)

theorem keptVerts_pairwise (mm : Mesh) : (keptVerts mm).Pairwise (· < ·) :=
  List.Pairwise.filter _ (List.pairwise_lt_range _)

theorem referencedB_iff (faces : List (Nat × Nat × Nat)) (v : Nat) :
    referencedB faces v = true ↔
      ∃ f ∈ faces, f.1 = v ∨ f.2.1 = v ∨ f.2.2 = v := by
  unfold referencedB
  simp [List.any_eq_true, or_assoc]

theorem prune_vertices_length (mm : Mesh) :
    (remove_unreferenced_vertices mm).vertices.length = (keptVerts mm).length := by
  rw [prune_vertices]
  exact filterMap_get?_length mm.vertices (keptVerts mm)
    (fun v hv => ((mem_keptVerts mm v).mp hv).1)

/-- Pruning keeps the surviving vertices in their original order. -/
theorem prune_vertices_sublist (mm : Mesh) :
    ((remove_unreferenced_vertices mm).vertices).Sublist mm.vertices := by
  rw [prune_vertices]
  exact filterMap_get?_sublist mm.vertices _ (keptVerts_pairwise mm)

/-- After pruning, every remaining vertex is referenced by some remapped
face: pruning establishes full referencedness relative to the face list it
was run on. -/
theorem prune_all_referenced (mm : Mesh) :
    ∀ v, v < (remove_unreferenced_vertices mm).vertices.length →
      referencedB (remove_unreferenced_vertices mm).faces v = true := by
  intro v hv
  rw [prune_vertices_length] at hv
  have hwmem : (keptVerts mm).get ⟨v, hv⟩ ∈ keptVerts mm := List.get_mem _ _ _
  have hwref : referencedB mm.faces ((keptVerts mm).get ⟨v, hv⟩) = true :=
    ((mem_keptVerts mm _).mp hwmem).2
  obtain ⟨f, hf, hcomp⟩ := (referencedB_iff mm.faces _).mp hwref
  rw [referencedB_iff]
  refine ⟨(remapIdx (keptVerts mm) f.1, remapIdx (keptVerts mm) f.2.1,
    remapIdx (keptVerts mm) f.2.2), ?_, ?_⟩
  · rw [prune_faces]
    exact List.mem_map.mpr ⟨f, hf, rfl⟩
  · have hidx : remapIdx (keptVerts mm) ((keptVerts mm).get ⟨v, hv⟩) = v :=
      List.get_indexOf (keptVerts_nodup mm) ⟨v, hv⟩
    rcases hcomp with h | h | h
    · exact Or.inl (by rw [show f.1 = (keptVerts mm).get ⟨v, hv⟩ from h]; exact hidx)
    · exact Or.inr (Or.inl
        (by rw [show f.2.1 = (keptVerts mm).get ⟨v, hv⟩ from h]; exact hidx))
    · exact Or.inr (Or.inr
        (by rw [show f.2.2 = (keptVerts mm).get ⟨v, hv⟩ from h]; exact hidx))

theorem remapIdx_lt (mm : Mesh) (c : Nat) (hc : c < mm.vertices.length)
    (href : referencedB mm.faces c = true) :
    remapIdx (keptVerts mm) c < (keptVerts mm).length :=
  List.indexOf_lt_length.mpr ((mem_keptVerts mm c).mpr ⟨hc, href⟩)

/-- Pruning a well-formed mesh yields a well-formed mesh. -/
theorem prune_WF (mm : Mesh) (hWF : mm.WF) :
    (remove_unreferenced_vertices mm).WF := by
  intro f hf
  rw [prune_faces] at hf
  obtain ⟨g, hg, rfl⟩ := List.mem_map.mp hf
  obtain ⟨h1, h2, h3⟩ := hWF g hg
  rw [prune_vertices_length]
  exact ⟨remapIdx_lt mm g.1 h1 ((referencedB_iff _ _).mpr ⟨g, hg, Or.inl rfl⟩),
    remapIdx_lt mm g.2.1 h2 ((referencedB_iff _ _).mpr ⟨g, hg, Or.inr (Or.inl rfl)⟩),
    remapIdx_lt mm g.2.2 h3 ((referencedB_iff _ _).mpr ⟨g, hg, Or.inr (Or.inr rfl)⟩)⟩

theorem nondegenerateB_iff (f : Nat × Nat × Nat) :
    nondegenerateB f = true ↔ f.1 ≠ f.2.1 ∧ f.1 ≠ f.2.2 ∧ f.2.1 ≠ f.2.2 := by
  unfold nondegenerateB
  simp [Bool.and_eq_true, and_assoc]

/-- Pruning a well-formed mesh whose faces are all nondegenerate keeps all
faces nondegenerate: the remap is injective on kept vertices. -/
theorem prune_preserves_nondegenerate (mm : Mesh) (hWF : mm.WF)
    (hnd : ∀ f ∈ mm.faces, nondegenerateB f = true) :
    ∀ f ∈ (remove_unreferenced_vertices mm).faces, nondegenerateB f = true := by
  intro f hf
  rw [prune_faces] at hf
  obtain ⟨g, hg, rfl⟩ := List.mem_map.mp hf
  obtain ⟨h1, h2, h3⟩ := hWF g hg
  obtain ⟨hd1, hd2, hd3⟩ := (nondegenerateB_iff g).mp (hnd g hg)
  have hm1 : g.1 ∈ keptVerts mm :=
    (mem_keptVerts mm g.1).mpr ⟨h1, (referencedB_iff _ _).mpr ⟨g, hg, Or.inl rfl⟩⟩
  have hm2 : g.2.1 ∈ keptVerts mm :=
    (mem_keptVerts mm g.2.1).mpr
      ⟨h2, (referencedB_iff _ _).mpr ⟨g, hg, Or.inr (Or.inl rfl)⟩⟩
  have hm3 : g.2.2 ∈ keptVerts mm :=
    (mem_keptVerts mm g.2.2).mpr
      ⟨h3, (referencedB_iff _ _).mpr ⟨g, hg, Or.inr (Or.inr rfl)⟩⟩
  rw [nondegenerateB_iff]
  exact ⟨fun he => hd1 ((List.indexOf_inj hm1 hm2).mp he),
    fun he => hd2 ((List.indexOf_inj hm1 hm3).mp he),
    fun he => hd3 ((List.indexOf_inj hm2 hm3).mp he)⟩

theorem filterMap_get?_range {α : Type} (l : List α) :
    (List.range l.length).filterMap (fun i => l.get? i) = l := by
  induction l with
  | nil => rfl
  | cons a l ih =>
    rw [List.length_cons, List.range_succ_eq_map]
    simp only [List.filterMap_cons, List.get?_cons_zero]
    rw [List.filterMap_map]
    rw [show ((fun i => (a :: l).get? i) ∘ Nat.succ) = (fun i => l.get? i) from rfl]
    rw [ih]

theorem indexOf_range (n c : Nat) (hc : c < n) : (List.range n).indexOf c = c := by
  have h := List.get_indexOf (List.nodup_range n) ⟨c, by simpa using hc⟩
  simpa using h

/-- Pruning a well-formed, fully referenced mesh only clears the color
list: vertices and faces are left unchanged. -/
theorem prune_of_all_referenced (mm : Mesh) (hWF : mm.WF)
    (hall : ∀ v, v < mm.vertices.length → referencedB mm.faces v = true) :
    remove_unreferenced_vertices mm =
      { vertices := mm.vertices, faces := mm.faces, vertexColors := [] } := by
  have hkeep : keptVerts mm = List.range mm.vertices.length := by
    unfold keptVerts
    exact List.filter_eq_self.mpr (fun v hv => hall v (List.mem_range.mp hv))
  have hv : (remove_unreferenced_vertices mm).vertices = mm.vertices := by
    rw [prune_vertices, hkeep, filterMap_get?_range]
  have hf : (remove_unreferenced_vertices mm).faces = mm.faces := by
    rw [prune_faces]
    have hmap : ∀ g ∈ mm.faces,
        (remapIdx (keptVerts mm) g.1, remapIdx (keptVerts mm) g.2.1,
          remapIdx (keptVerts mm) g.2.2) = g := by
      intro g hg
      obtain ⟨h1, h2, h3⟩ := hWF g hg
      unfold remapIdx
      rw [hkeep, indexOf_range _ _ h1, indexOf_range _ _ h2, indexOf_range _ _ h3]
    rw [List.map_congr_left hmap]
    exact List.map_id mm.faces
  conv_lhs => rw [show remove_unreferenced_vertices mm =
    (⟨(remove_unreferenced_vertices mm).vertices,
      (remove_unreferenced_vertices mm).faces,
      (remove_unreferenced_vertices mm).vertexColors⟩ : Mesh) from rfl]
  rw [hv, hf, prune_colors]

/-- The geometry sanitizer of spec §4.3 applied to a sub-mesh: the code's
`remove_degenerate_faces` degeneracy filter followed by the (modelled)
trimesh `remove_unreferenced_vertices` pruning. -/
def sanitize (m : Mesh) : Mesh :=
  remove_unreferenced_vertices
    { vertices := m.vertices, faces := remove_degenerate_faces m.faces
      vertexColors := m.vertexColors }

theorem remove_degenerate_faces_idem (fs : List (Nat × Nat × Nat)) :
    remove_degenerate_faces (remove_degenerate_faces fs) =
      remove_degenerate_faces fs := by
  unfold remove_degenerate_faces
  exact List.filter_eq_self.mpr (fun f hf => List.of_mem_filter hf)

/-- C9.  Idempotent sanitization: on a well-formed sub-mesh, running the
sanitizer (degeneracy filter then unreferenced-vertex pruning) twice gives
the same result as running it once; in particular the degeneracy filter of
an already-filtered face list returns it unchanged. -/
theorem sanitize_idempotent (m : Mesh) (hWF : m.WF) :
    sanitize (sanitize m) = sanitize m ∧
    remove_degenerate_faces (remove_degenerate_faces m.faces) =
      remove_degenerate_faces m.faces := by
  refine ⟨?_, remove_degenerate_faces_idem m.faces⟩
  have hWFmf : Mesh.WF
      ⟨m.vertices, remove_degenerate_faces m.faces, m.vertexColors⟩ := by
    intro f hf
    exact hWF f (List.mem_of_mem_filter hf)
  have hnd1 : ∀ f ∈ (sanitize m).faces, nondegenerateB f = true :=
    prune_preserves_nondegenerate _ hWFmf (fun f hf => List.of_mem_filter hf)
  have hWF1 : (sanitize m).WF := prune_WF _ hWFmf
  have hall1 : ∀ v, v < (sanitize m).vertices.length →
      referencedB (sanitize m).faces v = true := prune_all_referenced _
  have hfilter : remove_degenerate_faces (sanitize m).faces = (sanitize m).faces :=
    List.filter_eq_self.mpr hnd1
  show remove_unreferenced_vertices
    ⟨(sanitize m).vertices, remove_degenerate_faces (sanitize m).faces,
      (sanitize m).vertexColors⟩ = sanitize m
  rw [hfilter]
  rw [show (⟨(sanitize m).vertices, (sanitize m).faces,
    (sanitize m).vertexColors⟩ : Mesh) = sanitize m from rfl]
  rw [prune_of_all_referenced (sanitize m) hWF1 hall1]
  rfl

/-- C9 witness: the sanitizer is idempotent on the concrete mesh with one
valid and one degenerate white face. -/
theorem sanitize_idempotent_witness :
    sanitize (sanitize meshMixedDegenerate) = sanitize meshMixedDegenerate ∧
    remove_degenerate_faces (remove_degenerate_faces meshMixedDegenerate.faces) =
      remove_degenerate_faces meshMixedDegenerate.faces :=
  sanitize_idempotent meshMixedDegenerate (by decide)

/-- The WHITE sub-mesh the pipeline produces from `meshTwoColor`. -/
def subTwoWhite : Mesh :=
  ⟨[(0, 0, 0), (1, 0, 0), (0, 1, 0)], [(0, 1, 2)], []⟩

/-- The RED sub-mesh the pipeline produces from `meshTwoColor`. -/
def subTwoRed : Mesh :=
  ⟨[(0, 0, 1), (1, 1, 0), (1, 0, 1)], [(0, 1, 2)], []⟩

/-- The partition result on `meshTwoColor`. -/
def partsTwoColor : List (String × Mesh) :=
  [("WHITE", subTwoWhite), ("RED", subTwoRed)]

/-- The WHITE sub-mesh the pipeline produces from `meshDegenerateOnly`. -/
def subDegWhite : Mesh := ⟨[(0, 0, 0), (1, 0, 0)], [(0, 0, 1)], []⟩

/-- The WHITE sub-mesh the pipeline produces from `meshMixedDegenerate`. -/
def subMixWhite : Mesh :=
  ⟨[(0, 0, 0), (1, 0, 0), (0, 1, 0), (0, 0, 1), (1, 1, 0)],
    [(0, 1, 2), (3, 3, 4)], []⟩

theorem groupW_twoColor : groupOf COLOR_PALETTE 15 meshTwoColor "WHITE" = [0] := by
  norm_num [groupOf, faceAssign, faceBest, bestMatch, bestMatchAux, COLOR_PALETTE,
    meshTwoColor, faceAvg, faceAvgColor, vcolor, distSq, distLtTol,
    List.range_succ, List.filter]
  all_goals decide

theorem groupR_twoColor : groupOf COLOR_PALETTE 15 meshTwoColor "RED" = [1] := by
  norm_num [groupOf, faceAssign, faceBest, bestMatch, bestMatchAux, COLOR_PALETTE,
    meshTwoColor, faceAvg, faceAvgColor, vcolor, distSq, distLtTol,
    List.range_succ, List.filter]
  all_goals decide

theorem groupB_twoColor :
    groupOf COLOR_PALETTE 15 meshTwoColor "BLUE_VISOR" = [] := by
  norm_num [groupOf, faceAssign, faceBest, bestMatch, bestMatchAux, COLOR_PALETTE,
    meshTwoColor, faceAvg, faceAvgColor, vcolor, distSq, distLtTol,
    List.range_succ, List.filter]
  all_goals decide

theorem partition_twoColor :
    partition COLOR_PALETTE 15 meshTwoColor = partsTwoColor := by
  have h : partition COLOR_PALETTE 15 meshTwoColor =
      [("WHITE", remove_unreferenced_vertices (update_faces meshTwoColor [0])),
        ("RED", remove_unreferenced_vertices (update_faces meshTwoColor [1]))] := by
    have gW := groupW_twoColor
    have gR := groupR_twoColor
    have gB := groupB_twoColor
    simp only [COLOR_PALETTE] at gW gR gB
    simp [partition, COLOR_PALETTE, gW, gR, gB]
  rw [h]
  rfl

theorem groupW_degOnly :
    groupOf COLOR_PALETTE 15 meshDegenerateOnly "WHITE" = [0] := by
  norm_num [groupOf, faceAssign, faceBest, bestMatch, bestMatchAux, COLOR_PALETTE,
    meshDegenerateOnly, faceAvg, faceAvgColor, vcolor, distSq, distLtTol,
    List.range_succ, List.filter]

theorem groupR_degOnly :
    groupOf COLOR_PALETTE 15 meshDegenerateOnly "RED" = [] := by
  norm_num [groupOf, faceAssign, faceBest, bestMatch, bestMatchAux, COLOR_PALETTE,
    meshDegenerateOnly, faceAvg, faceAvgColor, vcolor, distSq, distLtTol,
    List.range_succ, List.filter]
  all_goals decide

theorem groupB_degOnly :
    groupOf COLOR_PALETTE 15 meshDegenerateOnly "BLUE_VISOR" = [] := by
  norm_num [groupOf, faceAssign, faceBest, bestMatch, bestMatchAux, COLOR_PALETTE,
    meshDegenerateOnly, faceAvg, faceAvgColor, vcolor, distSq, distLtTol,
    List.range_succ, List.filter]
  all_goals decide

theorem partition_degOnly :
    partition COLOR_PALETTE 15 meshDegenerateOnly = [("WHITE", subDegWhite)] := by
  have h : partition COLOR_PALETTE 15 meshDegenerateOnly =
      [("WHITE",
        remove_unreferenced_vertices (update_faces meshDegenerateOnly [0]))] := by
    have gW := groupW_degOnly
    have gR := groupR_degOnly
    have gB := groupB_degOnly
    simp only [COLOR_PALETTE] at gW gR gB
    simp [partition, COLOR_PALETTE, gW, gR, gB]
  rw [h]
  rfl

theorem groupW_mixed :
    groupOf COLOR_PALETTE 15 meshMixedDegenerate "WHITE" = [0, 1] := by
  norm_num [groupOf, faceAssign, faceBest, bestMatch, bestMatchAux, COLOR_PALETTE,
    meshMixedDegenerate, faceAvg, faceAvgColor, vcolor, distSq, distLtTol,
    List.range_succ, List.filter]

theorem groupR_mixed :
    groupOf COLOR_PALETTE 15 meshMixedDegenerate "RED" = [] := by
  norm_num [groupOf, faceAssign, faceBest, bestMatch, bestMatchAux, COLOR_PALETTE,
    meshMixedDegenerate, faceAvg, faceAvgColor, vcolor, distSq, distLtTol,
    List.range_succ, List.filter]
  all_goals decide

theorem groupB_mixed :
    groupOf COLOR_PALETTE 15 meshMixedDegenerate "BLUE_VISOR" = [] := by
  norm_num [groupOf, faceAssign, faceBest, bestMatch, bestMatchAux, COLOR_PALETTE,
    meshMixedDegenerate, faceAvg, faceAvgColor, vcolor, distSq, distLtTol,
    List.range_succ, List.filter]
  all_goals decide

theorem partition_mixed :
    partition COLOR_PALETTE 15 meshMixedDegenerate = [("WHITE", subMixWhite)] := by
  have h : partition COLOR_PALETTE 15 meshMixedDegenerate =
      [("WHITE",
        remove_unreferenced_vertices (update_faces meshMixedDegenerate [0, 1]))] := by
    have gW := groupW_mixed
    have gR := groupR_mixed
    have gB := groupB_mixed
    simp only [COLOR_PALETTE] at gW gR gB
    simp [partition, COLOR_PALETTE, gW, gR, gB]
  rw [h]
  rfl

/-- The lib3mf model built from `meshTwoColor` in single-container mode. -/
def model3mfTwoColor : Model3mf :=
  { materials := material_colors
    objects := [⟨"out_WHITE", 1, subTwoWhite.vertices, [(0, 1, 2)]⟩,
      ⟨"out_RED", 2, subTwoRed.vertices, [(0, 1, 2)]⟩] }

theorem map_enum_map {α β : Type} (l : List α) (g : α → β) (f : Nat × α → β)
    (hf : ∀ pr : Nat × α, f pr = g pr.2) : l.enum.map f = l.map g := by
  rw [show f = (g ∘ Prod.snd) from funext hf, ← List.map_map, List.enum_map_snd]

/-- C5 fails: on a run with exactly 2 non-empty color groups the material
table still has 3 entries (one per palette entry, including the empty
BLUE_VISOR group), not 2. -/
theorem single_container_material_table_cex :
    (convert_glb_to_automated_3mf meshTwoColor 15 "out").toOption.map
      (fun M => (M.materials.length, M.objects.length)) = some (3, 2) ∧
    (partition COLOR_PALETTE 15 meshTwoColor).length = 2 ∧ (3 : Nat) ≠ 2 := by
  refine ⟨?_, by rw [partition_twoColor]; rfl, by decide⟩
  rw [convert_glb_to_automated_3mf, partition_twoColor]
  rfl

/-- C5 (amended).  Single-container binding: the material table always
contains one entry per palette entry (all of `material_colors`, in palette
order, whether or not the corresponding group is empty); there is exactly
one mesh object per produced sub-mesh, and the `i`-th mesh object of the
palette-ordered sequence is bound to the material-table entry at 1-based
position `i`. -/
theorem single_container_binding (m : Mesh) (tol : ℚ) (stem : String)
    (M : Model3mf) (h : convert_glb_to_automated_3mf m tol stem = Except.ok M) :
    M.materials = material_colors ∧
    M.materials.length = COLOR_PALETTE.length ∧
    M.objects.length = (partition COLOR_PALETTE tol m).length ∧
    (∀ k, (hk : k < M.objects.length) →
      (M.objects.get ⟨k, hk⟩).propertyIndex = k + 1) := by
  unfold convert_glb_to_automated_3mf build3mf at h
  split at h
  · simp at h
  · have hM := Except.ok.inj h
    subst hM
    refine ⟨rfl, rfl, by simp [build3mfModel], ?_⟩
    intro k hk
    simp only [build3mfModel, List.get_eq_getElem, List.getElem_map,
      List.getElem_enum]

/-- C5 witness: the amended binding facts on the two-color mesh. -/
theorem single_container_binding_witness :
    model3mfTwoColor.materials = material_colors ∧
    model3mfTwoColor.objects.length =
      (partition COLOR_PALETTE 15 meshTwoColor).length :=
  ⟨(single_container_binding meshTwoColor 15 "out" model3mfTwoColor (by
      rw [convert_glb_to_automated_3mf, partition_twoColor]; rfl)).1,
    (single_container_binding meshTwoColor 15 "out" model3mfTwoColor (by
      rw [convert_glb_to_automated_3mf, partition_twoColor]; rfl)).2.2.1⟩

/-- C6 fails: a sub-mesh whose only face is degenerate is NOT excluded —
the builder serializes a mesh object with 2 vertices and 0 triangles and
reports success, raising no error. -/
theorem empty_submesh_serialized_cex :
    (convert_glb_to_automated_3mf meshDegenerateOnly 15 "o").toOption.map
      (fun M => M.objects.map (fun o => (o.vertices.length, o.triangles.length))) =
      some [(2, 0)] ∧
    (convert_glb_to_automated_3mf meshDegenerateOnly 15 "o").isOk = true := by
  constructor
  · rw [convert_glb_to_automated_3mf, partition_degOnly]
    rfl
  · rw [convert_glb_to_automated_3mf, partition_degOnly]
    rfl

/-- C6 (amended).  Empty-result policy: the build fails with the
descriptive empty-result error exactly when partitioning produced no
sub-mesh at all (in particular for a mesh with zero faces); whenever at
least one sub-mesh exists the build succeeds — a sub-mesh whose faces are
all removed by degeneracy filtering is still serialized as a mesh object
with zero triangles. -/
theorem empty_result_policy (m : Mesh) (tol : ℚ) (stem : String) :
    (partition COLOR_PALETTE tol m = [] →
      convert_glb_to_automated_3mf m tol stem = Except.error emptyResultMsg) ∧
    (m.faces = [] →
      convert_glb_to_automated_3mf m tol stem = Except.error emptyResultMsg) ∧
    (partition COLOR_PALETTE tol m ≠ [] →
      ∃ M, convert_glb_to_automated_3mf m tol stem = Except.ok M) := by
  have herr : partition COLOR_PALETTE tol m = [] →
      convert_glb_to_automated_3mf m tol stem = Except.error emptyResultMsg := by
    intro hp
    unfold convert_glb_to_automated_3mf build3mf
    rw [hp]
    rfl
  refine ⟨herr, ?_, ?_⟩
  · intro hf
    apply herr
    unfold partition
    apply List.filterMap_eq_nil_iff.mpr
    intro p hp
    have hg : groupOf COLOR_PALETTE tol m p.1 = [] := by
      simp [groupOf, hf]
    simp [hg]
  · intro hp
    have hni : (partition COLOR_PALETTE tol m).isEmpty = false := by
      simp [List.isEmpty_iff, hp]
    exact ⟨build3mfModel stem (partition COLOR_PALETTE tol m),
      by simp [convert_glb_to_automated_3mf, build3mf, hni]⟩

/-- C6 witness: a mesh with no faces makes the build fail with the
empty-result error, and the degenerate-only mesh still builds. -/
theorem empty_result_policy_witness :
    convert_glb_to_automated_3mf meshNoFaces 15 "o" = Except.error emptyResultMsg ∧
    (∃ M, convert_glb_to_automated_3mf meshDegenerateOnly 15 "o" = Except.ok M) :=
  ⟨(empty_result_policy meshNoFaces 15 "o").2.1 rfl,
    (empty_result_policy meshDegenerateOnly 15 "o").2.2 (by
      rw [partition_degOnly]; exact List.cons_ne_nil _ _)⟩

/-- C7 fails for the multi-file mode: the STL path exports each sub-mesh's
faces unchanged, so the degenerate face (0,0,1) reaches serialization. -/
theorem degeneracy_filter_modes_cex :
    (convert_glb_to_stl_parts meshDegenerateOnly 15 "p").toOption.map
      (fun l => l.map (fun q => (q.1, q.2.faces))) =
      some [("p_WHITE.stl", [(0, 0, 1)])] ∧
    nondegenerateB (0, 0, 1) = false := by
  constructor
  · rw [convert_glb_to_stl_parts, partition_degOnly]
    rfl
  · rfl

/-- C7 (amended).  Degeneracy filtering before serialization happens only
in single-container mode: there, each serialized object's triangles are
exactly the faces of its sub-mesh whose three indices are pairwise
distinct, in their original relative order; in multi-file (STL) mode the
sub-mesh faces are serialized unchanged, with no degeneracy filtering. -/
theorem degeneracy_filter_modes (stem pfx : String)
    (parts : List (String × Mesh)) (M : Model3mf) (outs : List (String × Mesh))
    (h3 : build3mf stem parts = Except.ok M)
    (hs : stlExport pfx parts = Except.ok outs) :
    M.objects.map MeshObject.triangles =
      parts.map (fun p => remove_degenerate_faces p.2.faces) ∧
    (∀ fs : List (Nat × Nat × Nat), ((remove_degenerate_faces fs).Sublist fs) ∧
      (∀ f, f ∈ remove_degenerate_faces fs ↔ f ∈ fs ∧ nondegenerateB f = true)) ∧
    outs.map (fun q => q.2.faces) = parts.map (fun p => p.2.faces) := by
  refine ⟨?_, ?_, ?_⟩
  · unfold build3mf at h3
    split at h3
    · simp at h3
    · have hM := Except.ok.inj h3
      subst hM
      show (parts.enum.map _).map MeshObject.triangles = _
      rw [List.map_map]
      exact map_enum_map parts (fun p => remove_degenerate_faces p.2.faces) _
        (fun pr => rfl)
  · intro fs
    exact ⟨List.filter_sublist fs,
      fun f => by unfold remove_degenerate_faces; simp [List.mem_filter]⟩
  · unfold stlExport at hs
    split at hs
    · simp at hs
    · have ho := Except.ok.inj hs
      subst ho
      rw [List.map_map]
      rfl

/-- C7 witness: the serialized triangle lists in both modes on the
two-color mesh's partition. -/
theorem degeneracy_filter_modes_witness :
    model3mfTwoColor.objects.map MeshObject.triangles =
      partsTwoColor.map (fun p => remove_degenerate_faces p.2.faces) ∧
    ([("p_WHITE.stl", subTwoWhite), ("p_RED.stl", subTwoRed)].map
      (fun q => q.2.faces)) = partsTwoColor.map (fun p => p.2.faces) :=
  ⟨(degeneracy_filter_modes "out" "p" partsTwoColor model3mfTwoColor
      [("p_WHITE.stl", subTwoWhite), ("p_RED.stl", subTwoRed)] (by rfl) (by rfl)).1,
    (degeneracy_filter_modes "out" "p" partsTwoColor model3mfTwoColor
      [("p_WHITE.stl", subTwoWhite), ("p_RED.stl", subTwoRed)]
      (by rfl) (by rfl)).2.2⟩

/-- C8 fails: from the mesh with one valid and one degenerate white face
the builder emits an object with all 5 vertices but only the one
non-degenerate triangle (0,1,2), so emitted vertex 3 is referenced by no
retained face — pruning ran before, not after, degeneracy filtering. -/
theorem no_unreferenced_vertices_cex :
    (convert_glb_to_automated_3mf meshMixedDegenerate 15 "o").toOption.map
      (fun M => M.objects.map (fun o => (o.vertices.length, o.triangles))) =
      some [(5, [(0, 1, 2)])] ∧
    referencedB [(0, 1, 2)] 3 = false := by
  constructor
  · rw [convert_glb_to_automated_3mf, partition_mixed]
    rfl
  · rfl

/-- C8 (amended).  Unreferenced-vertex pruning happens during partitioning,
before degeneracy filtering: every vertex of a produced sub-mesh is
referenced by at least one of its pre-filter faces, pruning keeps the
retained vertices in their original order, and the builder emits each
sub-mesh's vertex list unchanged — so after degeneracy filtering a
serialized object may retain vertices its triangles no longer reference. -/
theorem vertex_pruning_before_filter (palette : List (String × RGB)) (tol : ℚ)
    (m : Mesh) :
    (∀ pr ∈ partition palette tol m, ∀ v, v < pr.2.vertices.length →
      referencedB pr.2.faces v = true) ∧
    (∀ mm : Mesh, ((remove_unreferenced_vertices mm).vertices).Sublist mm.vertices) ∧
    (∀ stem parts M, build3mf stem parts = Except.ok M →
      M.objects.map MeshObject.vertices = parts.map (fun p => p.2.vertices)) := by
  refine ⟨?_, fun mm => prune_vertices_sublist mm, ?_⟩
  · intro pr hpr v hv
    obtain ⟨p, -, -, rfl⟩ := (mem_partition palette tol m pr).mp hpr
    exact prune_all_referenced _ v hv
  · intro stem parts M h
    unfold build3mf at h
    split at h
    · simp at h
    · have hM := Except.ok.inj h
      subst hM
      show (parts.enum.map _).map MeshObject.vertices = _
      rw [List.map_map]
      exact map_enum_map parts (fun p => p.2.vertices) _ (fun pr => rfl)

/-- C8 witness: every vertex of the mixed-degenerate WHITE sub-mesh is
referenced by a pre-filter face, and pruning is order-preserving there. -/
theorem vertex_pruning_before_filter_witness :
    referencedB subMixWhite.faces 3 = true ∧
    ((remove_unreferenced_vertices subMixWhite).vertices).Sublist
      subMixWhite.vertices :=
  ⟨(vertex_pruning_before_filter COLOR_PALETTE 15 meshMixedDegenerate).1
      ("WHITE", subMixWhite)
      (by rw [partition_mixed]; exact List.mem_singleton.mpr rfl) 3 (by decide),
    (vertex_pruning_before_filter COLOR_PALETTE 15 meshMixedDegenerate).2.1
      subMixWhite⟩

end Hunyuan
